import Mathlib

/-!
# Verification of the news-content extraction and impact-prompt pipeline

A shallow embedding of `app/core/langraph/tools/web_scraper.py`:
`extract_news_content`, `analyze_news_impact`, and `NewsImpactTool._run` /
`NewsImpactTool._arun`, together with theorems settling the specification
claims about them.

The external world (HTTP fetch + HTML parse) is modelled by a `FetchResult`:
either a transport-level failure (`requests.get` raising a
`RequestException`, which covers timeouts and connection errors) or a
response carrying an HTTP status code and the parsed HTML document
(BeautifulSoup with `html.parser` never fails on malformed input, so the
parse itself is total).  The parsed document is a forest of nodes: text
nodes and element nodes with a tag name, optional `class` and `id`
attributes, and children.

String processing (`str.split()`, `str.strip()`, `' '.join`, `get_text`)
is modelled at the character-list level, faithfully to Python semantics.
-/

set_option autoImplicit false

namespace WebScraper

/-- Python `str.isspace` / the whitespace set used by `str.split()` and
`str.strip()` with no arguments. -/
def pyIsSpace (c : Char) : Bool :=
  c == ' ' || c == '\t' || c == '\n' || c == '\r' || c == '\x0b' || c == '\x0c' ||
  c == '\x1c' || c == '\x1d' || c == '\x1e' || c == '\x1f' || c == '\x85' ||
  c == '\xa0' || c == '\u1680' || ('\u2000' ≤ c && c ≤ '\u200A') ||
  c == '\u2028' || c == '\u2029' || c == '\u202F' || c == '\u205F' || c == '\u3000'

/-- Python `str.strip()` on a character list: drop leading and trailing
whitespace. -/
def pyStrip (l : List Char) : List Char :=
  ((l.dropWhile pyIsSpace).reverse.dropWhile pyIsSpace).reverse

/-- Worker for `pyWords`: `acc` holds the current in-progress word,
reversed. -/
def pyWordsAux : List Char → List Char → List (List Char)
  | [], acc => if acc.isEmpty then [] else [acc.reverse]
  | c :: cs, acc =>
    if pyIsSpace c then
      if acc.isEmpty then pyWordsAux cs [] else acc.reverse :: pyWordsAux cs []
    else pyWordsAux cs (c :: acc)

/-- Python `str.split()` with no arguments: split on runs of whitespace,
discarding empty strings. -/
def pyWords (l : List Char) : List (List Char) := pyWordsAux l []

/-- Python `' '.join(words)` at the character level. -/
def joinWords : List (List Char) → List Char
  | [] => []
  | [w] => w
  | w :: v :: ws => w ++ ' ' :: joinWords (v :: ws)

/-- Does `needle` match at the head of `hay`? -/
def headMatch : List Char → List Char → Bool
  | [], _ => true
  | _ :: _, [] => false
  | c :: cs, d :: ds => c == d && headMatch cs ds

/-- Substring test: does `hay` contain `needle` as a contiguous substring? -/
def containsSub (needle : List Char) : List Char → Bool
  | [] => headMatch needle []
  | c :: cs => headMatch needle (c :: cs) || containsSub needle cs

/-- ASCII lowercasing of a character list (model of matching with `re.I`
over the ASCII-only pattern `(article|content|main-content)`). -/
def lowerChars (l : List Char) : List Char := l.map Char.toLower

/-- Model of `re.compile(r'(article|content|main-content)', re.I).search(s)`
succeeding: `s` contains one of the three alternatives, case-insensitively.
(For the multi-valued `class` attribute BeautifulSoup matches the pattern
against each whitespace-separated token; since none of the alternatives
contains whitespace, searching the raw attribute string is equivalent.) -/
def patMatches (s : String) : Bool :=
  containsSub "article".toList (lowerChars s.toList) ||
  containsSub "content".toList (lowerChars s.toList) ||
  containsSub "main-content".toList (lowerChars s.toList)

/-- Substring test at the `String` level: does `hay` contain `needle`? -/
def strContainsSub (hay needle : String) : Bool :=
  containsSub needle.toList hay.toList

mutual
/-- A node of the parsed HTML document: a text node (`NavigableString`) or
an element (`Tag`) with its tag name, optional `class` and `id` attribute
values, and children.  `html.parser` lowercases tag names, so tag names
are stored lowercased. -/
inductive Node where
  | text (s : String)
  | elem (tag : String) (classAttr : Option String) (idAttr : Option String)
      (children : NodeList)

/-- A sibling list of document nodes. -/
inductive NodeList where
  | nil
  | cons (hd : Node) (tl : NodeList)
end

/-- Build a `NodeList` from a Lean list, for writing concrete documents. -/
def NodeList.ofList : List Node → NodeList
  | [] => NodeList.nil
  | n :: ns => NodeList.cons n (NodeList.ofList ns)

mutual
/-- BeautifulSoup `find` restricted to one subtree: return the node itself
if it is an element satisfying the predicate on (tag, class, id), else the
first match among its descendants in document (pre-)order. -/
def findNode (p : String → Option String → Option String → Bool) :
    Node → Option Node
  | Node.text _ => none
  | Node.elem t c i cs =>
    if p t c i then some (Node.elem t c i cs) else findList p cs

/-- BeautifulSoup `find` over a sibling forest in document (pre-)order:
descend into each node before moving to the next sibling. -/
def findList (p : String → Option String → Option String → Bool) :
    NodeList → Option Node
  | NodeList.nil => none
  | NodeList.cons n ns =>
    match findNode p n with
    | some r => some r
    | none => findList p ns
end

mutual
/-- The strings a node contributes to `Tag._all_strings(strip=True)`:
each text descendant stripped, empty results skipped, in document order. -/
def nodeStrings : Node → List (List Char)
  | Node.text s => if (pyStrip s.toList).isEmpty then [] else [pyStrip s.toList]
  | Node.elem _ _ _ cs => listStrings cs

/-- `nodeStrings` over a sibling forest. -/
def listStrings : NodeList → List (List Char)
  | NodeList.nil => []
  | NodeList.cons n ns => nodeStrings n ++ listStrings ns
end

/-- BeautifulSoup `candidate.get_text(strip=True)`: the stripped text
descendants concatenated with the empty separator. -/
def getTextStrip : Node → List Char
  | Node.text s => pyStrip s.toList
  | Node.elem _ _ _ cs => (listStrings cs).flatten

/-- Outcome of `requests.get(url, headers=headers, timeout=10)` followed by
HTML parsing: either a transport-level failure (timeout, connection error,
invalid URL — everything that makes `requests.get` itself raise) or a
response with its HTTP status code and parsed body. -/
inductive FetchResult where
  | transportError
  | response (status : Nat) (doc : NodeList)

/-- `response.raise_for_status()` raises `requests.HTTPError` exactly for
client errors (400–499) and server errors (500–599). -/
def raisesForStatus (status : Nat) : Bool := 400 ≤ status && status < 600

/-- Criterion of `soup.find('article')`: any element with tag `article`. -/
def pArticle : String → Option String → Option String → Bool :=
  fun t _ _ => t == "article"

/-- Criterion of `soup.find('div', class_=re.compile(..., re.I))`: a `div`
whose `class` attribute is present and matches the pattern. -/
def pDivClass : String → Option String → Option String → Bool :=
  fun t c _ => t == "div" &&
    (match c with | some s => patMatches s | none => false)

/-- Criterion of `soup.find('div', id=re.compile(..., re.I))`: a `div`
whose `id` attribute is present and matches the pattern. -/
def pDivId : String → Option String → Option String → Bool :=
  fun t _ i => t == "div" &&
    (match i with | some s => patMatches s | none => false)

/-- Modelled from the spec: its step (b) reads "the first element whose
class attribute matches a case-insensitive pattern for
article/content/main-content" — any element, with no tag restriction.
Stated here to compare the spec's wording with the source's `pDivClass`,
which additionally requires the tag to be `div`. -/
def pAnyClassSpec : String → Option String → Option String → Bool :=
  fun _ c _ =>
    match c with | some s => patMatches s | none => false

/-- Criterion of `soup.find('body')`: any element with tag `body`. -/
def pBody : String → Option String → Option String → Bool :=
  fun t _ _ => t == "body"

/-- The prioritized candidate list of `extract_news_content`:
`soup.find('article')`, `soup.find('div', class_=pattern)`,
`soup.find('div', id=pattern)`, `soup.find('body')`.  A `find` with a
regex-valued attribute criterion requires the attribute to be present. -/
def content_candidates (doc : NodeList) : List (Option Node) :=
  [ findList pArticle doc,
    findList pDivClass doc,
    findList pDivId doc,
    findList pBody doc ]

/-- The `for candidate in content_candidates: if candidate: ...` loop:
bs4 `Tag.__bool__` is always `True` ("a tag is non-None even if it has no
contents"), so the test selects the first non-`None` candidate. -/
def firstSome : List (Option Node) → Option Node
  | [] => none
  | some n :: _ => some n
  | none :: rest => firstSome rest

/-- The whitespace-normalize-and-truncate step applied to the selected
candidate: `text = ' '.join(candidate.get_text(strip=True).split())`;
`words = text.split()[:max_words]`; `return ' '.join(words)`. -/
def truncateText (candidate : Node) (max_words : Nat) : List Char :=
  let text := joinWords (pyWords (getTextStrip candidate))
  joinWords ((pyWords text).take max_words)

/-- `extract_news_content(url, max_words=500)`: `None` on transport failure
or a 4xx/5xx status; otherwise the normalized, word-truncated text of the
first non-`None` candidate, or `None` when every candidate is `None`. -/
def extract_news_content (fetch : FetchResult) (max_words : Nat := 500) :
    Option String :=
  match fetch with
  | FetchResult.transportError => none
  | FetchResult.response status doc =>
    if raisesForStatus status then none
    else
      match firstSome (content_candidates doc) with
      | some candidate => some (String.mk (truncateText candidate max_words))
      | none => none

/-- The f-string template of `analyze_news_impact`, byte-for-byte
(triple-quoted string starting with a newline, 4-space indentation, the
blank line carrying 4 trailing spaces). -/
def impact_prompt (content field : String) : String :=
  "\n    News Content: " ++ content ++
  "\n    \n    Analyze the potential impact of this news on the " ++ field ++
  " sector:\n    " ++ "- Identify key events or developments" ++
  "\n    " ++ "- Explain potential short-term and long-term consequences" ++
  "\n    " ++ "- Provide specific insights related to " ++ field ++ "\n    "

/-- `analyze_news_impact(url, field, max_words=500)`: `None` when the
extracted content is absent or empty (`if not content`), otherwise the
formatted prompt. -/
def analyze_news_impact (fetch : FetchResult) (field : String)
    (max_words : Nat := 500) : Option String :=
  match extract_news_content fetch max_words with
  | none => none
  | some content => if content = "" then none else some (impact_prompt content field)

/-- `NewsImpactTool._run(url, field, **kwargs)`: calls
`analyze_news_impact(url, field)` and maps an absent result to the fixed
user-facing message. -/
def NewsImpactTool_run (fetch : FetchResult) (field : String) : String :=
  match analyze_news_impact fetch field with
  | none => "Unable to extract or analyze the news article content."
  | some result => result

/-- `NewsImpactTool._arun(url, field, **kwargs)`: `return self._run(url,
field, **kwargs)`. -/
def NewsImpactTool_arun (fetch : FetchResult) (field : String) : String :=
  NewsImpactTool_run fetch field

/-! ### Concrete documents used to instantiate the theorems -/

/-- The first `<article>` element of `docArticle`. -/
def artNode : Node :=
  Node.elem "article" none none
    (NodeList.ofList [Node.text "  Hello   brave\n new  world  "])

/-- `<html><body><article>  Hello   brave\n new  world  </article></body></html>`. -/
def docArticle : NodeList :=
  NodeList.ofList [Node.elem "html" none none (NodeList.ofList
    [Node.elem "body" none none (NodeList.ofList [artNode])])]

/-- A document whose first candidate (`<article></article>`) exists but has
empty text, followed by non-empty body text. -/
def docEmptyArticle : NodeList :=
  NodeList.ofList [Node.elem "html" none none (NodeList.ofList
    [Node.elem "body" none none (NodeList.ofList
      [Node.elem "article" none none NodeList.nil,
       Node.text "body text here"])])]

/-- The `<body>` element of `docBodyOnly`. -/
def bodyNode : Node :=
  Node.elem "body" none none (NodeList.ofList [Node.text "just body"])

/-- `<html><body>just body</body></html>`: no `<article>`, no matching
`class`/`id`, a non-empty `<body>`. -/
def docBodyOnly : NodeList :=
  NodeList.ofList [Node.elem "html" none none (NodeList.ofList [bodyNode])]

/-- A `<span class="content">` element: its class matches the pattern but
its tag is not `div`. -/
def spanNode : Node :=
  Node.elem "span" (some "content") none (NodeList.ofList [Node.text "inner"])

/-- `<html><body><span class="content">inner</span>outer</body></html>`:
no `<article>`, no `div` at all, but an element whose class attribute
matches the pattern. -/
def docSpanClass : NodeList :=
  NodeList.ofList [Node.elem "html" none none (NodeList.ofList
    [Node.elem "body" none none (NodeList.ofList
      [spanNode, Node.text "outer"])])]

/-- An article-bearing document whose extracted content is also
`"just body"`, used to compare two fetches with equal extractions. -/
def docArticleSame : NodeList :=
  NodeList.ofList [Node.elem "article" none none
    (NodeList.ofList [Node.text "just  body "])]

/-! ### Word-splitting machinery -/

theorem headMatch_append_self (x y : List Char) : headMatch x (x ++ y) = true := by
  induction x with
  | nil => rfl
  | cons c cs ih => simp [headMatch, ih]

theorem containsSub_of_headMatch (pat hay : List Char)
    (h : headMatch pat hay = true) : containsSub pat hay = true := by
  cases hay with
  | nil => simpa [containsSub] using h
  | cons c cs => simp [containsSub, h]

theorem containsSub_append_left (pat h t : List Char)
    (hc : containsSub pat t = true) : containsSub pat (h ++ t) = true := by
  induction h with
  | nil => simpa using hc
  | cons c cs ih => simp [containsSub, ih]

theorem headMatch_append_right (pat x u : List Char)
    (h : headMatch pat x = true) : headMatch pat (x ++ u) = true := by
  induction pat generalizing x with
  | nil => rfl
  | cons c cs ih =>
    cases x with
    | nil => simp [headMatch] at h
    | cons d ds =>
      simp [headMatch] at h ⊢
      exact ⟨h.1, ih ds h.2⟩

theorem containsSub_nil_needle (hay : List Char) : containsSub [] hay = true := by
  cases hay <;> simp [containsSub, headMatch]

theorem containsSub_append_right (pat t u : List Char)
    (hc : containsSub pat t = true) : containsSub pat (t ++ u) = true := by
  induction t with
  | nil =>
    have hpat : pat = [] := by
      cases pat with
      | nil => rfl
      | cons c cs => simp [containsSub, headMatch] at hc
    simpa [hpat] using containsSub_nil_needle u
  | cons c cs ih =>
    simp only [containsSub, Bool.or_eq_true] at hc
    rcases hc with h | h
    · have := headMatch_append_right pat (c :: cs) u h
      simpa [containsSub] using Or.inl this
    · simpa [containsSub] using Or.inr (ih h)

theorem mem_pyWordsAux (l : List Char) :
    ∀ acc, (∀ c ∈ acc, pyIsSpace c = false) →
      ∀ w ∈ pyWordsAux l acc, w ≠ [] ∧ ∀ c ∈ w, pyIsSpace c = false := by
  induction l with
  | nil =>
    intro acc hacc w hw
    by_cases hacce : acc.isEmpty
    · simp [pyWordsAux, hacce] at hw
    · simp [pyWordsAux, hacce] at hw
      subst hw
      refine ⟨?_, ?_⟩
      · simp only [ne_eq, List.reverse_eq_nil_iff]
        simpa [List.isEmpty_iff] using hacce
      · intro c hc
        exact hacc c (List.mem_reverse.mp hc)
  | cons c cs ih =>
    intro acc hacc w hw
    by_cases hsp : pyIsSpace c
    · by_cases hacce : acc.isEmpty
      · simp [pyWordsAux, hsp, hacce] at hw
        exact ih [] (by simp) w hw
      · simp [pyWordsAux, hsp, hacce] at hw
        rcases hw with hw | hw
        · subst hw
          refine ⟨?_, ?_⟩
          · simp only [ne_eq, List.reverse_eq_nil_iff]
            simpa [List.isEmpty_iff] using hacce
          · intro d hd
            exact hacc d (List.mem_reverse.mp hd)
        · exact ih [] (by simp) w hw
    · simp only [pyWordsAux, hsp, if_false, Bool.false_eq_true] at hw
      refine ih (c :: acc) ?_ w hw
      intro d hd
      rcases List.mem_cons.mp hd with hd | hd
      · subst hd; simpa using hsp
      · exact hacc d hd

theorem mem_pyWords (l : List Char) :
    ∀ w ∈ pyWords l, w ≠ [] ∧ ∀ c ∈ w, pyIsSpace c = false :=
  mem_pyWordsAux l [] (by simp)

theorem pyWordsAux_cons_nonspace (c : Char) (cs acc : List Char)
    (hc : pyIsSpace c = false) :
    pyWordsAux (c :: cs) acc = pyWordsAux cs (c :: acc) := by
  simp [pyWordsAux, hc]

theorem pyWordsAux_append_word (w : List Char) (cs : List Char)
    (hw : ∀ c ∈ w, pyIsSpace c = false) :
    ∀ acc, pyWordsAux (w ++ cs) acc = pyWordsAux cs (w.reverse ++ acc) := by
  induction w with
  | nil => intro acc; simp
  | cons c w' ih =>
    intro acc
    have hc : pyIsSpace c = false := hw c (by simp)
    have hw' : ∀ d ∈ w', pyIsSpace d = false := fun d hd => hw d (by simp [hd])
    rw [List.cons_append, pyWordsAux_cons_nonspace c (w' ++ cs) acc hc,
      ih hw' (c :: acc)]
    simp [List.append_assoc]

theorem pyWords_joinWords (ws : List (List Char))
    (h : ∀ w ∈ ws, w ≠ [] ∧ ∀ c ∈ w, pyIsSpace c = false) :
    pyWords (joinWords ws) = ws := by
  induction ws with
  | nil => simp [joinWords, pyWords, pyWordsAux]
  | cons w vs ih =>
    cases vs with
    | nil =>
      have hw := h w (by simp)
      have : pyWords (joinWords [w]) = pyWordsAux (w ++ []) [] := by
        simp [joinWords, pyWords]
      rw [this, pyWordsAux_append_word w [] hw.2 []]
      have hne : (w.reverse ++ []).isEmpty = false := by
        simp [List.isEmpty_iff, hw.1]
      simp [pyWordsAux, hne, hw.1]
    | cons v vs' =>
      have hw := h w (by simp)
      have hrest : ∀ u ∈ v :: vs', u ≠ [] ∧ ∀ c ∈ u, pyIsSpace c = false :=
        fun u hu => h u (by simp [hu])
      have hjoin : joinWords (w :: v :: vs') = w ++ ' ' :: joinWords (v :: vs') := rfl
      rw [pyWords, hjoin, pyWordsAux_append_word w (' ' :: joinWords (v :: vs')) hw.2 []]
      have hne : (w.reverse ++ ([] : List Char)).isEmpty = false := by
        simp [List.isEmpty_iff, hw.1]
      have hsp : pyIsSpace ' ' = true := by decide
      simp only [pyWordsAux, hsp, if_true, hne, Bool.false_eq_true, if_false]
      rw [← pyWords, ih hrest]
      simp

theorem pyWords_joinWords_pyWords (l : List Char) :
    pyWords (joinWords (pyWords l)) = pyWords l :=
  pyWords_joinWords (pyWords l) (mem_pyWords l)

theorem pyWords_joinWords_take (l : List Char) (n : Nat) :
    pyWords (joinWords ((pyWords l).take n)) = (pyWords l).take n :=
  pyWords_joinWords ((pyWords l).take n)
    (fun w hw => mem_pyWords l w (List.mem_of_mem_take hw))

/-- The normalize-and-truncate step in closed form: the first `max_words`
whitespace-separated words of the candidate's text, rejoined with single
spaces. -/
theorem truncateText_eq (candidate : Node) (max_words : Nat) :
    truncateText candidate max_words =
      joinWords ((pyWords (getTextStrip candidate)).take max_words) := by
  simp [truncateText, pyWords_joinWords_pyWords]

/-! ### Unfolding `extract_news_content` by selected candidate -/

theorem extract_of_article (status : Nat) (doc : NodeList) (a : Node)
    (max_words : Nat) (hs : raisesForStatus status = false)
    (ha : findList pArticle doc = some a) :
    extract_news_content (FetchResult.response status doc) max_words =
      some (String.mk (truncateText a max_words)) := by
  simp [extract_news_content, hs, content_candidates, ha, firstSome]

theorem extract_of_divClass (status : Nat) (doc : NodeList) (b : Node)
    (max_words : Nat) (hs : raisesForStatus status = false)
    (h1 : findList pArticle doc = none)
    (hb : findList pDivClass doc = some b) :
    extract_news_content (FetchResult.response status doc) max_words =
      some (String.mk (truncateText b max_words)) := by
  simp [extract_news_content, hs, content_candidates, h1, hb, firstSome]

theorem extract_of_divId (status : Nat) (doc : NodeList) (b : Node)
    (max_words : Nat) (hs : raisesForStatus status = false)
    (h1 : findList pArticle doc = none)
    (h2 : findList pDivClass doc = none)
    (hb : findList pDivId doc = some b) :
    extract_news_content (FetchResult.response status doc) max_words =
      some (String.mk (truncateText b max_words)) := by
  simp [extract_news_content, hs, content_candidates, h1, h2, hb, firstSome]

theorem extract_of_body (status : Nat) (doc : NodeList) (b : Node)
    (max_words : Nat) (hs : raisesForStatus status = false)
    (h1 : findList pArticle doc = none)
    (h2 : findList pDivClass doc = none)
    (h3 : findList pDivId doc = none)
    (hb : findList pBody doc = some b) :
    extract_news_content (FetchResult.response status doc) max_words =
      some (String.mk (truncateText b max_words)) := by
  simp [extract_news_content, hs, content_candidates, h1, h2, h3, hb, firstSome]

/-! ### Claim theorems -/

/-- **C1**: for a 200 response whose HTML contains an `<article>` element,
`extract_news_content` returns that element's text with internal whitespace
collapsed to single spaces, truncated at a word boundary to `max_words`
words; when the element contains at most `max_words` words the result is
exactly those words rejoined with single spaces. -/
theorem extract_article_truncation (doc : NodeList) (a : Node)
    (max_words : Nat) (ha : findList pArticle doc = some a) :
    extract_news_content (FetchResult.response 200 doc) max_words =
      some (String.mk (joinWords ((pyWords (getTextStrip a)).take max_words))) ∧
    ((pyWords (getTextStrip a)).length ≤ max_words →
      extract_news_content (FetchResult.response 200 doc) max_words =
        some (String.mk (joinWords (pyWords (getTextStrip a))))) := by
  have h := extract_of_article 200 doc a max_words (by decide) ha
  rw [truncateText_eq] at h
  exact ⟨h, fun hlen => by rw [h, List.take_of_length_le hlen]⟩

/-- Witness for **C1** at a concrete document: an article containing
`"  Hello   brave\n new  world  "` truncated to 3 words. -/
theorem extract_article_truncation_witness :
    extract_news_content (FetchResult.response 200 docArticle) 3 =
      some "Hello brave new" :=
  ((extract_article_truncation docArticle artNode 3 rfl).1).trans (by decide)

/-- **C2**: the first non-`None` candidate is selected even when its
extracted text is empty; an existing first candidate whose text is empty
yields the empty string rather than falling through to a later
candidate. -/
theorem empty_first_candidate_short_circuit (doc : NodeList) (a : Node)
    (max_words : Nat) (ha : findList pArticle doc = some a) :
    extract_news_content (FetchResult.response 200 doc) max_words =
      some (String.mk (truncateText a max_words)) ∧
    (getTextStrip a = [] →
      extract_news_content (FetchResult.response 200 doc) max_words =
        some "") := by
  have h := extract_of_article 200 doc a max_words (by decide) ha
  refine ⟨h, fun hempty => ?_⟩
  rw [h, truncateText_eq, hempty]
  simp [pyWords, pyWordsAux, joinWords]

/-- Witness for **C2**: an empty `<article></article>` followed by body
text yields `""`, not the body text. -/
theorem empty_first_candidate_short_circuit_witness :
    extract_news_content (FetchResult.response 200 docEmptyArticle) 500 =
      some "" ∧
    extract_news_content (FetchResult.response 200 docEmptyArticle) 500 ≠
      some "body text here" :=
  ⟨(empty_first_candidate_short_circuit docEmptyArticle
      (Node.elem "article" none none NodeList.nil) 500 rfl).2 rfl,
   by decide⟩

/-- **C6**: when extraction yields an absent result, `analyze_news_impact`
yields an absent result (no prompt is formatted). -/
theorem analyze_none_of_extract_none (fetch : FetchResult) (field : String)
    (max_words : Nat)
    (h : extract_news_content fetch max_words = none) :
    analyze_news_impact fetch field max_words = none := by
  simp [analyze_news_impact, h]

/-- Witness for **C6** at a transport failure. -/
theorem analyze_none_of_extract_none_witness :
    analyze_news_impact FetchResult.transportError "finance" 500 = none :=
  analyze_none_of_extract_none FetchResult.transportError "finance" 500 rfl

/-- **C7**: `NewsImpactTool._run` maps an absent analysis result to the
fixed user-facing message and returns a present prompt unchanged. -/
theorem run_translates_absent (fetch : FetchResult) (field : String) :
    (analyze_news_impact fetch field = none →
      NewsImpactTool_run fetch field =
        "Unable to extract or analyze the news article content.") ∧
    (∀ prompt, analyze_news_impact fetch field = some prompt →
      NewsImpactTool_run fetch field = prompt) := by
  constructor
  · intro h
    simp [NewsImpactTool_run, h]
  · intro prompt h
    simp [NewsImpactTool_run, h]

/-- Witness for **C7** at a transport failure. -/
theorem run_translates_absent_witness :
    NewsImpactTool_run FetchResult.transportError "finance" =
      "Unable to extract or analyze the news article content." :=
  (run_translates_absent FetchResult.transportError "finance").1 rfl

/-- **C8**: the prompt builder is deterministic — the output of
`analyze_news_impact` depends only on the extracted content and the field:
two invocations whose extractions agree produce identical results. -/
theorem analyze_depends_only_on_content (f1 f2 : FetchResult)
    (field : String) (mw1 mw2 : Nat)
    (h : extract_news_content f1 mw1 = extract_news_content f2 mw2) :
    analyze_news_impact f1 field mw1 = analyze_news_impact f2 field mw2 := by
  unfold analyze_news_impact
  rw [h]

/-- Witness for **C8**: two different documents with equal extracted
content produce the same prompt. -/
theorem analyze_depends_only_on_content_witness :
    analyze_news_impact (FetchResult.response 200 docBodyOnly) "finance" 500 =
      analyze_news_impact (FetchResult.response 200 docArticleSame) "finance" 500 :=
  analyze_depends_only_on_content
    (FetchResult.response 200 docBodyOnly)
    (FetchResult.response 200 docArticleSame) "finance" 500 500 (by decide)

/-- **C9**: a present-but-empty extraction is treated exactly like an
absent one — `analyze_news_impact` returns `None` and the prompt template
is never reached. -/
theorem analyze_none_of_empty_content (fetch : FetchResult) (field : String)
    (max_words : Nat)
    (h : extract_news_content fetch max_words = some "") :
    analyze_news_impact fetch field max_words = none := by
  simp [analyze_news_impact, h]

/-- Witness for **C9**: the empty-article document extracts to `some ""`
and analysis returns `none`. -/
theorem analyze_none_of_empty_content_witness :
    analyze_news_impact (FetchResult.response 200 docEmptyArticle)
      "finance" 500 = none :=
  analyze_none_of_empty_content (FetchResult.response 200 docEmptyArticle)
    "finance" 500 (by decide)

/-- **C10**: `NewsImpactTool._arun` returns exactly what
`NewsImpactTool._run` returns on the same inputs. -/
theorem arun_eq_run (fetch : FetchResult) (field : String) :
    NewsImpactTool_arun fetch field = NewsImpactTool_run fetch field := rfl

/-- **C3** (counterexample): a response with status 300 — not a 2xx
status — still yields a present extraction, because
`response.raise_for_status()` raises only for 4xx/5xx. -/
theorem non2xx_status_still_extracts :
    ¬(200 ≤ 300 ∧ 300 ≤ 299) ∧
    extract_news_content (FetchResult.response 300 docBodyOnly) 500 =
      some "just body" := by
  exact ⟨by decide, by decide⟩

/-- **C3** (amended): `extract_news_content` returns `None` on every
transport-level failure and on every 4xx/5xx status; otherwise the result
is present exactly when some candidate content region is found. -/
theorem extract_failure_amended (max_words : Nat) :
    extract_news_content FetchResult.transportError max_words = none ∧
    ∀ status doc,
      ((400 ≤ status ∧ status < 600) →
        extract_news_content (FetchResult.response status doc) max_words =
          none) ∧
      ((extract_news_content (FetchResult.response status doc)
          max_words).isSome ↔
        (¬(400 ≤ status ∧ status < 600) ∧
          (firstSome (content_candidates doc)).isSome)) := by
  refine ⟨rfl, fun status doc => ⟨?_, ?_⟩⟩
  · rintro ⟨h4, h6⟩
    have hr : raisesForStatus status = true := by
      simp [raisesForStatus]
      exact ⟨h4, h6⟩
    simp [extract_news_content, hr]
  · cases hr : raisesForStatus status with
    | false =>
      have hprop : ¬(400 ≤ status ∧ status < 600) := by
        intro hand
        have ht : raisesForStatus status = true := by
          simp [raisesForStatus, hand.1, hand.2]
        rw [hr] at ht
        exact Bool.false_ne_true ht
      cases hx : firstSome (content_candidates doc) with
      | none => simp [extract_news_content, hr, hx, hprop]
      | some c => simp [extract_news_content, hr, hx, hprop]
    | true =>
      have hprop : 400 ≤ status ∧ status < 600 := by
        simpa [raisesForStatus] using hr
      simp [extract_news_content, hr, hprop]

/-- Witness for the amended **C3**: a 404 response on an empty document
yields `none`. -/
theorem extract_failure_amended_witness :
    extract_news_content (FetchResult.response 404 NodeList.nil) 500 = none :=
  ((extract_failure_amended 500).2 404 NodeList.nil).1 ⟨by decide, by decide⟩

/-- **C4** (counterexample): the claim's steps (b)/(c) read "the first
element whose class/id attribute matches", but the source restricts both
finds to `div` elements.  In `docSpanClass` the `<span class="content">`
is the first element whose class matches the pattern, yet the extractor
skips it — no candidate matches until the body, whose text
`"innerouter"`, not the span's text `"inner"`, is returned. -/
theorem class_candidate_div_only_counterexample :
    findList pAnyClassSpec docSpanClass = some spanNode ∧
    getTextStrip spanNode = "inner".toList ∧
    findList pArticle docSpanClass = none ∧
    findList pDivClass docSpanClass = none ∧
    findList pDivId docSpanClass = none ∧
    extract_news_content (FetchResult.response 200 docSpanClass) 500 =
      some "innerouter" ∧
    extract_news_content (FetchResult.response 200 docSpanClass) 500 ≠
      some "inner" := by
  exact ⟨rfl, rfl, rfl, rfl, rfl, by decide, by decide⟩

/-- **C4** (amended): candidates are evaluated in the fixed priority order
article → div-with-matching-class → div-with-matching-id → body — steps
(b) and (c) consider `div` elements only: the extraction result follows
the first of these finds that is non-`None`; in particular a document with
no `<article>` and no matching `div` falls back to the body's text, even
when a non-`div` element's class or id matches the pattern. -/
theorem candidate_priority_order (doc : NodeList) (max_words : Nat) :
    (∀ a, findList pArticle doc = some a →
      extract_news_content (FetchResult.response 200 doc) max_words =
        some (String.mk (truncateText a max_words))) ∧
    (findList pArticle doc = none →
      ∀ b, findList pDivClass doc = some b →
        extract_news_content (FetchResult.response 200 doc) max_words =
          some (String.mk (truncateText b max_words))) ∧
    (findList pArticle doc = none → findList pDivClass doc = none →
      ∀ b, findList pDivId doc = some b →
        extract_news_content (FetchResult.response 200 doc) max_words =
          some (String.mk (truncateText b max_words))) ∧
    (findList pArticle doc = none → findList pDivClass doc = none →
      findList pDivId doc = none →
      ∀ b, findList pBody doc = some b →
        extract_news_content (FetchResult.response 200 doc) max_words =
          some (String.mk (truncateText b max_words))) := by
  refine ⟨fun a ha => ?_, fun h1 b hb => ?_, fun h1 h2 b hb => ?_,
    fun h1 h2 h3 b hb => ?_⟩
  · exact extract_of_article 200 doc a max_words (by decide) ha
  · exact extract_of_divClass 200 doc b max_words (by decide) h1 hb
  · exact extract_of_divId 200 doc b max_words (by decide) h1 h2 hb
  · exact extract_of_body 200 doc b max_words (by decide) h1 h2 h3 hb

/-- Witness for **C4**: a document with only a non-empty `<body>` returns
the body's text. -/
theorem candidate_priority_order_witness :
    extract_news_content (FetchResult.response 200 docBodyOnly) 500 =
      some "just body" :=
  ((candidate_priority_order docBodyOnly 500).2.2.2 rfl rfl rfl
    bodyNode rfl).trans (by decide)

theorem containsSub_self_append (pat rest : List Char) :
    containsSub pat (pat ++ rest) = true :=
  containsSub_of_headMatch _ _ (headMatch_append_self _ _)

/-- **C5**: for every present non-empty extracted content and every field
label, the prompt built by `analyze_news_impact` contains the literal
content string, the literal field label, and the three enumerated analysis
prompts (key events or developments; short-term and long-term
consequences; field-specific insights). -/
theorem impact_prompt_contains (fetch : FetchResult) (field content : String)
    (max_words : Nat)
    (hc : extract_news_content fetch max_words = some content)
    (hne : content ≠ "") :
    analyze_news_impact fetch field max_words =
      some (impact_prompt content field) ∧
    strContainsSub (impact_prompt content field) content = true ∧
    strContainsSub (impact_prompt content field) field = true ∧
    strContainsSub (impact_prompt content field)
      "- Identify key events or developments" = true ∧
    strContainsSub (impact_prompt content field)
      "- Explain potential short-term and long-term consequences" = true ∧
    strContainsSub (impact_prompt content field)
      ("- Provide specific insights related to " ++ field) = true := by
  refine ⟨by simp [analyze_news_impact, hc, hne], ?_, ?_, ?_, ?_, ?_⟩
  · simp only [strContainsSub, impact_prompt, String.toList, String.data_append,
      List.append_assoc]
    apply containsSub_append_left
    exact containsSub_self_append _ _
  · simp only [strContainsSub, impact_prompt, String.toList, String.data_append,
      List.append_assoc]
    apply containsSub_append_left
    apply containsSub_append_left
    apply containsSub_append_left
    exact containsSub_self_append _ _
  · simp only [strContainsSub, impact_prompt, String.toList, String.data_append,
      List.append_assoc]
    apply containsSub_append_left
    apply containsSub_append_left
    apply containsSub_append_left
    apply containsSub_append_left
    apply containsSub_append_left
    exact containsSub_self_append _ _
  · simp only [strContainsSub, impact_prompt, String.toList, String.data_append,
      List.append_assoc]
    apply containsSub_append_left
    apply containsSub_append_left
    apply containsSub_append_left
    apply containsSub_append_left
    apply containsSub_append_left
    apply containsSub_append_left
    apply containsSub_append_left
    exact containsSub_self_append _ _
  · simp only [strContainsSub, impact_prompt, String.toList, String.data_append,
      List.append_assoc]
    apply containsSub_append_left
    apply containsSub_append_left
    apply containsSub_append_left
    apply containsSub_append_left
    apply containsSub_append_left
    apply containsSub_append_left
    apply containsSub_append_left
    apply containsSub_append_left
    apply containsSub_append_left
    rw [← List.append_assoc]
    exact containsSub_self_append _ _

/-- Witness for **C5**: the body-only document with field
`"technology"`. -/
theorem impact_prompt_contains_witness :
    analyze_news_impact (FetchResult.response 200 docBodyOnly)
      "technology" 500 = some (impact_prompt "just body" "technology") ∧
    strContainsSub (impact_prompt "just body" "technology")
      "technology" = true ∧
    strContainsSub (impact_prompt "just body" "technology")
      "- Identify key events or developments" = true := by
  have h := impact_prompt_contains (FetchResult.response 200 docBodyOnly)
    "technology" "just body" 500 (by decide) (by decide)
  exact ⟨h.1, h.2.2.1, h.2.2.2.1⟩

end WebScraper
